import Mathlib

/-!
# Staged order-progress workflow engine — shallow embedding

This file embeds the order-progress workflow engine of the repository:
the four-stage (warehouse / shipping / applied / result) progress services
(`base-service.ts`, `warehouse-service.ts`, `shipping-service.ts`,
`applied-service` as listed in the module README, `result-service.ts`,
`service-manager.ts` and the compatibility layer that delegates to it),
together with the `completeOrder` / `cancelOrder` order actions.

Modelling conventions:
* Payloads are the Zod-parsed shapes (`WarehouseProgressSchema` etc.).
  Zod strips unknown keys, so the optional `notes` field never survives
  parsing and never reaches the stored data or the hand-written
  validators; it is omitted here and the (then dead) notes checks with it.
* Date strings are modelled as already-parsed timestamps (`Option Int`);
  the `Invalid ... date format` branches (`isNaN(new Date(x))`) cannot
  fire on a parsed value and are not represented.  The current time
  `new Date()` is an explicit `now : Int` parameter.
* JS numbers are modelled as `Rat`.
* Each operation is a function `... → Except _ DBState`.  All database
  writes in the source happen after every check has passed (and the
  order row referenced by a progress write is known to exist), so a
  failing operation leaves the store unchanged; the `Except` encoding
  makes that convention explicit: an `.error` result carries no new
  state.  Prisma's `update`/`delete`-on-missing-row exceptions are the
  explicit `none` branches.
* `auth()` / the `sales_id` scoping of the order actions is upstream
  authentication, out of scope per the specification; an order that
  exists but belongs to another user behaves like `Order not found`,
  which the `orderNotFound` error already covers.
-/

namespace OrderProgress

/-- The four fixed progress stages (`ProgressStage` in `types.ts`). -/
inductive Stage
  | warehouse
  | shipping
  | applied
  | result
deriving DecidableEq

/-- The Prisma `OrderStatus` enumeration. -/
inductive OrderStatus
  | pending
  | warehouse
  | shipped
  | delivered
  | applied
  | completed
  | cancelled
  | amended
deriving DecidableEq

/-- Zod-parsed warehouse payload (`WarehouseProgressSchema`). -/
structure WarehouseData where
  status : Bool
deriving DecidableEq

/-- Zod-parsed shipping payload (`ShippingProgressSchema`); the optional
date strings are modelled as parsed timestamps. -/
structure ShippingData where
  status : Bool
  date_shipping : Option Int := none
  date_received : Option Int := none
deriving DecidableEq

/-- Zod-parsed applied payload (`AppliedProgressSchema`). -/
structure AppliedData where
  est_applied_area : Rat
  actual_applied_area : Option Rat := none
deriving DecidableEq

/-- Zod-parsed result payload (`ResultProgressSchema`). -/
structure ResultData where
  status : Bool
  yield_amount : Option Rat := none
deriving DecidableEq

/-- The tagged union of stage payloads (the JSON `data` column). -/
inductive StageData
  | warehouse (d : WarehouseData)
  | shipping (d : ShippingData)
  | applied (d : AppliedData)
  | result (d : ResultData)
deriving DecidableEq

namespace StageData

/-- The stage a payload shape belongs to (the Zod `stage` literal that
accompanies the `data` object in every validated input). -/
def tag : StageData → Stage
  | .warehouse _ => .warehouse
  | .shipping _ => .shipping
  | .applied _ => .applied
  | .result _ => .result

/-- JS read of `data.status` after a cast: truthiness of the field, with
`undefined` (payloads that have no `status`) falsy. -/
def jsStatus : StageData → Bool
  | .warehouse d => d.status
  | .shipping d => d.status
  | .result d => d.status
  | .applied _ => false

/-- JS read of `data.date_shipping` (only shipping payloads have it). -/
def jsDateShipping : StageData → Option Int
  | .shipping d => d.date_shipping
  | _ => none

/-- JS read of `data.date_received` (only shipping payloads have it). -/
def jsDateReceived : StageData → Option Int
  | .shipping d => d.date_received
  | _ => none

/-- JS read of `data.est_applied_area` (only applied payloads have it). -/
def jsEstArea : StageData → Option Rat
  | .applied d => some d.est_applied_area
  | _ => none

end StageData

/-- A row of the `orderProgress` table.  `createdAt` ordering is the
position in the state's list (creates append at the end). -/
structure ProgressRecord where
  id : Nat
  order_id : String
  stage : Stage
  data : StageData
deriving DecidableEq

/-- The persistent store: the `order` rows (id, status) and the
`orderProgress` rows, plus the id counter for fresh progress ids. -/
structure DBState where
  orders : List (String × OrderStatus)
  progress : List ProgressRecord
  nextId : Nat
deriving DecidableEq

/-- Embeds `db.order.findUnique({where: {id}})`, projected to the status. -/
def findOrder (s : DBState) (oid : String) : Option OrderStatus :=
  (s.orders.find? (fun p => p.1 == oid)).map (·.2)

/-- Embeds `db.orderProgress.findMany({where: {order_id}, orderBy: createdAt asc})`. -/
def recordsFor (s : DBState) (oid : String) : List ProgressRecord :=
  s.progress.filter (fun r => r.order_id == oid)

/-- Embeds `db.orderProgress.findFirst({where: {order_id, stage}})`
(`getStageProgressData` in `base-service.ts`). -/
def getStageProgressData (s : DBState) (oid : String) (st : Stage) :
    Option ProgressRecord :=
  s.progress.find? (fun r => r.order_id == oid && r.stage == st)

/-- Embeds `checkExistingProgress` in `base-service.ts`. -/
def checkExistingProgress (s : DBState) (oid : String) (st : Stage) : Bool :=
  (getStageProgressData s oid st).isSome

/-- Embeds `db.orderProgress.findUnique({where: {id}})`. -/
def findById (s : DBState) (id : Nat) : Option ProgressRecord :=
  s.progress.find? (fun r => r.id == id)

/-- The warehouse/pending tail of `determineOrderStatus`. -/
def warehouseBranch (l : List ProgressRecord) : OrderStatus :=
  match l.find? (fun r => r.stage == Stage.warehouse) with
  | some wp => if wp.data.jsStatus then .warehouse else .pending
  | none => .pending

/-- Embeds `determineOrderStatus` in `base-service.ts`, as a pure function of the
order's progress rows (the result of `findMany` above): first shipping
row — `date_received` present ⇒ `delivered`, else `status` truthy and
`date_shipping` present ⇒ `shipped` — otherwise fall through to the
warehouse row — `status` truthy ⇒ `warehouse` — else `pending`. -/
def determineOrderStatus (l : List ProgressRecord) : OrderStatus :=
  match l.find? (fun r => r.stage == Stage.shipping) with
  | some sp =>
      if sp.data.jsDateReceived.isSome then .delivered
      else if sp.data.jsStatus && sp.data.jsDateShipping.isSome then .shipped
      else warehouseBranch l
  | none => warehouseBranch l

/-- Embeds `db.order.update({where: {id}, data: {status}})`.  Prisma throws when
the row is missing; every call site has already established that the
order exists, so the missing-row case is modelled as a no-op. -/
def setOrderStatus (s : DBState) (oid : String) (st : OrderStatus) : DBState :=
  { s with orders := s.orders.map (fun p => if p.1 == oid then (p.1, st) else p) }

/-- Embeds `updateOrderStatus` in `base-service.ts`: re-derive and persist. -/
def updateOrderStatusS (s : DBState) (oid : String) : DBState :=
  setOrderStatus s oid (determineOrderStatus (recordsFor s oid))

/-- Errors thrown by the progress services, one constructor per distinct
`throw new Error(...)` site of the modular services. -/
inductive PErr
  | orderNotFound
  | cancelledOrder
  | shippingDateFuture
  | receivedDateFuture
  | receivedBeforeShipping
  | shippingDateRequired
  | statusRequiredForReceived
  | zodPositiveViolated (st : Stage)
  | estAreaNotPositive
  | estAreaTooLarge
  | actualAreaNegative
  | actualAreaTooLarge
  | areaVarianceExceeded
  | yieldRequired
  | yieldNegative
  | yieldTooLarge
  | yieldNotZero
  | alreadyExists (st : Stage)
  | warehouseMissing
  | warehouseIncomplete
  | shippingMissing
  | shippingIncomplete
  | notDelivered
  | appliedMissing
  | appliedAreaNotPositive
  | progressNotFound (st : Stage)
  | dependentProgressExists (st : Stage)
  | progressMissing
deriving DecidableEq

/-- The specification's `ConflictError` kind: a record already exists for
the stage, or a delete is blocked by a dependent stage. -/
def PErr.isConflictError : PErr → Bool
  | .alreadyExists _ => true
  | .dependentProgressExists _ => true
  | _ => false

/-- The specification's `PrerequisiteError` kind: an ordering or
delivery/area gating rule is unmet. -/
def PErr.isPrerequisiteError : PErr → Bool
  | .warehouseMissing => true
  | .warehouseIncomplete => true
  | .shippingMissing => true
  | .shippingIncomplete => true
  | .notDelivered => true
  | .appliedMissing => true
  | .appliedAreaNotPositive => true
  | _ => false

/-- The specification's `ValidationError` kind: the payload fails a
schema, range or cross-field rule. -/
def PErr.isValidationError : PErr → Bool
  | .shippingDateFuture => true
  | .receivedDateFuture => true
  | .receivedBeforeShipping => true
  | .shippingDateRequired => true
  | .statusRequiredForReceived => true
  | .zodPositiveViolated _ => true
  | .estAreaNotPositive => true
  | .estAreaTooLarge => true
  | .actualAreaNegative => true
  | .actualAreaTooLarge => true
  | .areaVarianceExceeded => true
  | .yieldRequired => true
  | .yieldNegative => true
  | .yieldTooLarge => true
  | .yieldNotZero => true
  | _ => false

/-- The specification's `TerminalStateError` kind. -/
def PErr.isTerminalStateError : PErr → Bool
  | .cancelledOrder => true
  | _ => false

/-- Embeds `validateOrder` in `base-service.ts`: the order must exist and must
not be `cancelled` (no other status is checked). -/
def validateOrderS (s : DBState) (oid : String) : Except PErr Unit :=
  match findOrder s oid with
  | none => .error .orderNotFound
  | some st => if st = .cancelled then .error .cancelledOrder else .ok ()

/-- Embeds `validateWarehouseData`: `status` must be boolean (guaranteed by the
parsed type) and notes well-formed (stripped by Zod); always passes. -/
def validateWarehouseData (_d : WarehouseData) : Except PErr Unit := .ok ()

/-- The `date_shipping` block of `validateShippingData`: the shipping
date must not be in the future. -/
def checkDateShipping (now : Int) (d : ShippingData) : Except PErr Unit :=
  match d.date_shipping with
  | none => .ok ()
  | some ds => if now < ds then .error .shippingDateFuture else .ok ()

/-- The `date_received` block of `validateShippingData`: the received
date must not be in the future and must not precede the shipping date. -/
def checkDateReceived (now : Int) (d : ShippingData) : Except PErr Unit :=
  match d.date_received with
  | none => .ok ()
  | some dr =>
      if now < dr then .error .receivedDateFuture
      else
        match d.date_shipping with
        | some ds => if dr < ds then .error .receivedBeforeShipping else .ok ()
        | none => .ok ()

/-- The date-check section of `validateShippingData` (lines 56–88 of
`shipping-service.ts`). -/
def shippingDateChecks (now : Int) (d : ShippingData) : Except PErr Unit := do
  checkDateShipping now d
  checkDateReceived now d

/-- Embeds `if (data.status && !data.date_shipping) throw` in
`validateShippingData`. -/
def requireShippingDate (d : ShippingData) : Except PErr Unit :=
  if d.status && d.date_shipping.isNone then .error .shippingDateRequired
  else .ok ()

/-- Embeds `if (data.date_received && !data.status) throw` in
`validateShippingData`. -/
def requireStatusForReceived (d : ShippingData) : Except PErr Unit :=
  if d.date_received.isSome && !d.status then .error .statusRequiredForReceived
  else .ok ()

/-- Embeds `validateShippingData` in `shipping-service.ts`: date checks, then
`status == true` requires `date_shipping`, then `date_received` present
requires `status == true`. -/
def validateShippingData (now : Int) (d : ShippingData) : Except PErr Unit := do
  shippingDateChecks now d
  requireShippingDate d
  requireStatusForReceived d

/-- Embeds `AppliedProgressSchema`: `est_applied_area` must be positive and
`actual_applied_area`, when present, positive (`z.number().positive()`).
The other stage schemas impose no range constraints. -/
def zodParseApplied (d : AppliedData) : Except PErr Unit :=
  if d.est_applied_area ≤ 0 then .error (.zodPositiveViolated .applied)
  else
    match d.actual_applied_area with
    | some a =>
        if a ≤ 0 then .error (.zodPositiveViolated .applied) else .ok ()
    | none => .ok ()

/-- The `est_applied_area` block of `validateAppliedData` (module
README): positive and at most 1,000,000. -/
def checkEstArea (d : AppliedData) : Except PErr Unit :=
  if d.est_applied_area ≤ 0 then .error .estAreaNotPositive
  else if d.est_applied_area > 1000000 then .error .estAreaTooLarge
  else .ok ()

/-- The `actual_applied_area` block of `validateAppliedData`: when
present, non-negative, at most 1,000,000 and within 50% of the estimate
(`est * 0.5`). -/
def checkActualArea (d : AppliedData) : Except PErr Unit :=
  match d.actual_applied_area with
  | none => .ok ()
  | some a =>
      if a < 0 then .error .actualAreaNegative
      else if a > 1000000 then .error .actualAreaTooLarge
      else if |a - d.est_applied_area| > d.est_applied_area * (1 / 2 : Rat) then
        .error .areaVarianceExceeded
      else .ok ()

/-- Embeds `validateAppliedData` of the applied service (module README). -/
def validateAppliedData (d : AppliedData) : Except PErr Unit := do
  checkEstArea d
  checkActualArea d

/-- Embeds `if (data.status && data.yield_amount === undefined) throw` in
`validateResultData`. -/
def requireYieldPresent (d : ResultData) : Except PErr Unit :=
  if d.status && d.yield_amount.isNone then .error .yieldRequired else .ok ()

/-- The `yield_amount !== undefined` block of `validateResultData`:
non-negative, at most 1,000,000, and not positive when `status` is
false. -/
def checkYieldRange (d : ResultData) : Except PErr Unit :=
  match d.yield_amount with
  | none => .ok ()
  | some y =>
      if y < 0 then .error .yieldNegative
      else if y > 1000000 then .error .yieldTooLarge
      else if !d.status && y > 0 then .error .yieldNotZero
      else .ok ()

/-- Embeds `validateResultData` in `result-service.ts`: `yield_amount` required
when `status` is true, then the range/cross-field checks. -/
def validateResultData (d : ResultData) : Except PErr Unit := do
  requireYieldPresent d
  checkYieldRange d

/-- The `checkExistingProgress`-then-throw prologue shared by every
stage's business rules. -/
def requireNoExisting (s : DBState) (oid : String) (st : Stage) :
    Except PErr Unit :=
  if checkExistingProgress s oid st then .error (.alreadyExists st) else .ok ()

/-- Embeds `validateWarehouseBusinessRules`: only the one-record-per-stage
check. -/
def warehouseBusinessRules (s : DBState) (oid : String) : Except PErr Unit :=
  requireNoExisting s oid .warehouse

/-- The warehouse-prerequisite block of `validateShippingBusinessRules`:
the warehouse record must exist with truthy `status`. -/
def requireWarehouseComplete (s : DBState) (oid : String) : Except PErr Unit :=
  match getStageProgressData s oid .warehouse with
  | none => .error .warehouseMissing
  | some wp => if !wp.data.jsStatus then .error .warehouseIncomplete else .ok ()

/-- Embeds `validateShippingBusinessRules`. -/
def shippingBusinessRules (s : DBState) (oid : String) : Except PErr Unit := do
  requireNoExisting s oid .shipping
  requireWarehouseComplete s oid

/-- The shipping-prerequisite block of `validateAppliedBusinessRules`
(module README): the shipping record must exist, be complete (`status`
truthy and `date_shipping` present) and have `date_received` set. -/
def requireShippingDelivered (s : DBState) (oid : String) : Except PErr Unit :=
  match getStageProgressData s oid .shipping with
  | none => .error .shippingMissing
  | some sp =>
      if !sp.data.jsStatus || sp.data.jsDateShipping.isNone then
        .error .shippingIncomplete
      else if sp.data.jsDateReceived.isNone then .error .notDelivered
      else .ok ()

/-- Embeds `validateAppliedBusinessRules` (module README). -/
def appliedBusinessRules (s : DBState) (oid : String) : Except PErr Unit := do
  requireNoExisting s oid .applied
  requireShippingDelivered s oid

/-- The applied-prerequisite block of `validateResultBusinessRules`: the
applied record must exist with `est_applied_area` truthy and positive
(`!est || est <= 0` collapses to `est ≤ 0` on numbers; a payload of a
different shape reads as `undefined`, hence the `getD 0`). -/
def requireAppliedComplete (s : DBState) (oid : String) : Except PErr Unit :=
  match getStageProgressData s oid .applied with
  | none => .error .appliedMissing
  | some ap =>
      if (ap.data.jsEstArea.getD 0) ≤ 0 then .error .appliedAreaNotPositive
      else .ok ()

/-- Embeds `validateResultBusinessRules`. -/
def resultBusinessRules (s : DBState) (oid : String) : Except PErr Unit := do
  requireNoExisting s oid .result
  requireAppliedComplete s oid

/-- Embeds `db.orderProgress.create`: append a fresh row (`createdAt` order is
list order). -/
def insertRecord (s : DBState) (oid : String) (st : Stage) (d : StageData) :
    DBState :=
  { s with
    progress := s.progress ++ [⟨s.nextId, oid, st, d⟩]
    nextId := s.nextId + 1 }

/-- Embeds `db.orderProgress.update({where: {id}})`: replace the `data` column
of the row with the given id (the `stage` column is not written). -/
def replaceData (s : DBState) (id : Nat) (d : StageData) : DBState :=
  { s with
    progress := s.progress.map (fun r => if r.id == id then { r with data := d } else r) }

/-- Embeds `db.orderProgress.delete({where: {id}})` (`deleteProgressById`). -/
def removeRecord (s : DBState) (id : Nat) : DBState :=
  { s with progress := s.progress.filter (fun r => r.id != id) }

/-- Embeds `WarehouseProgressService.create`. -/
def warehouseCreate (s : DBState) (oid : String) (d : WarehouseData) :
    Except PErr DBState := do
  validateOrderS s oid
  validateWarehouseData d
  warehouseBusinessRules s oid
  pure (updateOrderStatusS (insertRecord s oid .warehouse (.warehouse d)) oid)

/-- Embeds `ShippingProgressService.create`. -/
def shippingCreate (now : Int) (s : DBState) (oid : String) (d : ShippingData) :
    Except PErr DBState := do
  validateOrderS s oid
  validateShippingData now d
  shippingBusinessRules s oid
  pure (updateOrderStatusS (insertRecord s oid .shipping (.shipping d)) oid)

/-- Embeds `AppliedProgressService.create` (module README). -/
def appliedCreate (s : DBState) (oid : String) (d : AppliedData) :
    Except PErr DBState := do
  validateOrderS s oid
  zodParseApplied d
  validateAppliedData d
  appliedBusinessRules s oid
  pure (updateOrderStatusS (insertRecord s oid .applied (.applied d)) oid)

/-- Embeds `ResultProgressService.create`. -/
def resultCreate (s : DBState) (oid : String) (d : ResultData) :
    Except PErr DBState := do
  validateOrderS s oid
  validateResultData d
  resultBusinessRules s oid
  pure (updateOrderStatusS (insertRecord s oid .result (.result d)) oid)

/-- A validated create/update input: the order id together with the
Zod-parsed tagged payload (the `stage` discriminator is the tag). -/
structure ProgressInput where
  order_id : String
  data : StageData
deriving DecidableEq

/-- Embeds `OrderProgressServiceManager.createProgress` (the facade delegated to
by the compatibility layer's `createOrderProgress`): dispatch on the
stage tag to the stage service's `create`. -/
def createProgress (now : Int) (s : DBState) (inp : ProgressInput) :
    Except PErr DBState :=
  match inp.data with
  | .warehouse d => warehouseCreate s inp.order_id d
  | .shipping d => shippingCreate now s inp.order_id d
  | .applied d => appliedCreate s inp.order_id d
  | .result d => resultCreate s inp.order_id d

/-- The Prisma throw when `db.orderProgress.update` targets a missing
row. -/
def requireRecord (s : DBState) (id : Nat) (st : Stage) : Except PErr Unit :=
  if (findById s id).isNone then .error (.progressNotFound st) else .ok ()

/-- Embeds `WarehouseProgressService.update`: validate the order named in the
input, validate the payload, replace the data of the row with the given
id (Prisma throws when the id is missing), then re-derive the status of
the order named in the input. -/
def warehouseUpdate (s : DBState) (id : Nat) (oid : String) (d : WarehouseData) :
    Except PErr DBState := do
  validateOrderS s oid
  validateWarehouseData d
  requireRecord s id .warehouse
  pure (updateOrderStatusS (replaceData s id (.warehouse d)) oid)

/-- Embeds `ShippingProgressService.update`. -/
def shippingUpdate (now : Int) (s : DBState) (id : Nat) (oid : String)
    (d : ShippingData) : Except PErr DBState := do
  validateOrderS s oid
  validateShippingData now d
  requireRecord s id .shipping
  pure (updateOrderStatusS (replaceData s id (.shipping d)) oid)

/-- Embeds `AppliedProgressService.update` (module README). -/
def appliedUpdate (s : DBState) (id : Nat) (oid : String) (d : AppliedData) :
    Except PErr DBState := do
  validateOrderS s oid
  zodParseApplied d
  validateAppliedData d
  requireRecord s id .applied
  pure (updateOrderStatusS (replaceData s id (.applied d)) oid)

/-- Embeds `ResultProgressService.update`. -/
def resultUpdate (s : DBState) (id : Nat) (oid : String) (d : ResultData) :
    Except PErr DBState := do
  validateOrderS s oid
  validateResultData d
  requireRecord s id .result
  pure (updateOrderStatusS (replaceData s id (.result d)) oid)

/-- Embeds `OrderProgressServiceManager.updateProgress`. -/
def updateProgress (now : Int) (s : DBState) (id : Nat) (inp : ProgressInput) :
    Except PErr DBState :=
  match inp.data with
  | .warehouse d => warehouseUpdate s id inp.order_id d
  | .shipping d => shippingUpdate now s id inp.order_id d
  | .applied d => appliedUpdate s id inp.order_id d
  | .result d => resultUpdate s id inp.order_id d

/-- Embeds `WarehouseProgressService.delete`: look the row up, delete it and
re-derive the owner's status.  No dependent-stage check and no order
status check. -/
def warehouseDelete (s : DBState) (id : Nat) : Except PErr DBState :=
  match findById s id with
  | none => .error (.progressNotFound .warehouse)
  | some r => .ok (updateOrderStatusS (removeRecord s id) r.order_id)

/-- Embeds `ShippingProgressService.delete`: blocked while an `applied` or
`result` row exists for the same order. -/
def shippingDelete (s : DBState) (id : Nat) : Except PErr DBState :=
  match findById s id with
  | none => .error (.progressNotFound .shipping)
  | some r =>
      if (s.progress.find? (fun r' =>
            r'.order_id == r.order_id &&
              (r'.stage == Stage.applied || r'.stage == Stage.result))).isSome then
        .error (.dependentProgressExists .shipping)
      else .ok (updateOrderStatusS (removeRecord s id) r.order_id)

/-- Embeds `AppliedProgressService.delete` (module README): blocked while a
`result` row exists for the same order. -/
def appliedDelete (s : DBState) (id : Nat) : Except PErr DBState :=
  match findById s id with
  | none => .error (.progressNotFound .applied)
  | some r =>
      if (s.progress.find? (fun r' =>
            r'.order_id == r.order_id && r'.stage == Stage.result)).isSome then
        .error (.dependentProgressExists .applied)
      else .ok (updateOrderStatusS (removeRecord s id) r.order_id)

/-- Embeds `ResultProgressService.delete`: no dependent-stage check. -/
def resultDelete (s : DBState) (id : Nat) : Except PErr DBState :=
  match findById s id with
  | none => .error (.progressNotFound .result)
  | some r => .ok (updateOrderStatusS (removeRecord s id) r.order_id)

/-- The compatibility layer's `deleteOrderProgress`: read the row's stage
and dispatch to that stage service's `delete`. -/
def deleteOrderProgress (s : DBState) (id : Nat) : Except PErr DBState :=
  match findById s id with
  | none => .error .progressMissing
  | some r =>
      match r.stage with
      | .warehouse => warehouseDelete s id
      | .shipping => shippingDelete s id
      | .applied => appliedDelete s id
      | .result => resultDelete s id

/-- Errors returned by the `cancelOrder` / `completeOrder` order actions,
one constructor per distinct `{ error: ... }` return. -/
inductive OrdErr
  | orderNotFound
  | alreadyCancelled
  | cannotCancelCompleted
  | alreadyCompleted
  | cannotCompleteCancelled
  | resultStageRequired
deriving DecidableEq

/-- Embeds `cancelOrder`: the order must exist and be neither `cancelled` nor
`completed`; sets the status to `cancelled`. -/
def cancelOrder (s : DBState) (oid : String) : Except OrdErr DBState :=
  match findOrder s oid with
  | none => .error .orderNotFound
  | some st =>
      if st = .cancelled then .error .alreadyCancelled
      else if st = .completed then .error .cannotCancelCompleted
      else .ok (setOrderStatus s oid .cancelled)

/-- Embeds `completeOrder`: the order must exist, be neither `completed` nor
`cancelled`, and the `result` row must exist with truthy `status`; sets
the status to `completed`. -/
def completeOrder (s : DBState) (oid : String) : Except OrdErr DBState :=
  match findOrder s oid with
  | none => .error .orderNotFound
  | some st =>
      if st = .completed then .error .alreadyCompleted
      else if st = .cancelled then .error .cannotCompleteCancelled
      else
        match getStageProgressData s oid .result with
        | none => .error .resultStageRequired
        | some rp =>
            if !rp.data.jsStatus then .error .resultStageRequired
            else .ok (setOrderStatus s oid .completed)

/-- The states reachable through the workflow engine: any starting set of
orders with no progress rows, closed under the successful operations. -/
inductive Reachable : DBState → Prop
  | init (orders : List (String × OrderStatus)) : Reachable ⟨orders, [], 0⟩
  | create {s s' : DBState} (now : Int) (inp : ProgressInput) :
      Reachable s → createProgress now s inp = .ok s' → Reachable s'
  | update {s s' : DBState} (now : Int) (id : Nat) (inp : ProgressInput) :
      Reachable s → updateProgress now s id inp = .ok s' → Reachable s'
  | del {s s' : DBState} (id : Nat) :
      Reachable s → deleteOrderProgress s id = .ok s' → Reachable s'
  | complete {s s' : DBState} (oid : String) :
      Reachable s → completeOrder s oid = .ok s' → Reachable s'
  | cancel {s s' : DBState} (oid : String) :
      Reachable s → cancelOrder s oid = .ok s' → Reachable s'

/-- At most one progress record per (order, stage) pair. -/
def UniqueStageRecords (s : DBState) : Prop :=
  ∀ r1 ∈ s.progress, ∀ r2 ∈ s.progress,
    r1.order_id = r2.order_id → r1.stage = r2.stage → r1 = r2

/-- Every stored payload with a `date_received` has truthy `status`. -/
def ReceivedImpliesStatus (s : DBState) : Prop :=
  ∀ r ∈ s.progress, r.data.jsDateReceived.isSome → r.data.jsStatus = true

/-- The status-derivation cascade exactly as the specification words it
(for comparison with the implementation's `determineOrderStatus`): a
shipping record with `date_received` set ⇒ `delivered`; else a shipping
record with `status == true` and `date_shipping` set ⇒ `shipped`; else a
warehouse record with `status == true` ⇒ `warehouse`; else `pending`. -/
def deriveSpec (l : List ProgressRecord) : OrderStatus :=
  if l.any (fun r => r.stage == Stage.shipping && r.data.jsDateReceived.isSome) then
    .delivered
  else if l.any (fun r =>
      r.stage == Stage.shipping && (r.data.jsStatus && r.data.jsDateShipping.isSome)) then
    .shipped
  else if l.any (fun r => r.stage == Stage.warehouse && r.data.jsStatus) then
    .warehouse
  else .pending

/-- The payload passes its stage's schema and data validation (the part
of the create pipeline between `validateOrder` and the business rules). -/
def payloadValid (now : Int) : StageData → Prop
  | .warehouse d => validateWarehouseData d = .ok ()
  | .shipping d => validateShippingData now d = .ok ()
  | .applied d => zodParseApplied d = .ok () ∧ validateAppliedData d = .ok ()
  | .result d => validateResultData d = .ok ()

/-! ## Concrete states

A single order `"order-1"` driven through the workflow; used for the
closed witness and counterexample theorems below.  Every step equation
is checked by evaluation. -/

/-- Initial store: one pending order, no progress rows. -/
def st0 : DBState := ⟨[("order-1", .pending)], [], 0⟩

/-- Warehouse create input `{status: true}`. -/
def inpW : ProgressInput := ⟨"order-1", .warehouse ⟨true⟩⟩

/-- Shipping create input `{status: true, date_shipping: 10}`. -/
def inpShipNR : ProgressInput := ⟨"order-1", .shipping ⟨true, some 10, none⟩⟩

/-- Shipping create input `{status: true, date_shipping: 10, date_received: 20}`. -/
def inpShipR : ProgressInput := ⟨"order-1", .shipping ⟨true, some 10, some 20⟩⟩

/-- Applied create input `{est_applied_area: 10}`. -/
def inpApplied10 : ProgressInput := ⟨"order-1", .applied ⟨10, none⟩⟩

/-- Result create input `{status: true, yield_amount: 50}`. -/
def inpResult50 : ProgressInput := ⟨"order-1", .result ⟨true, some 50⟩⟩

/-- Result create input `{status: true}` with no `yield_amount`. -/
def inpResultNoYield : ProgressInput := ⟨"order-1", .result ⟨true, none⟩⟩

/-- After creating the warehouse progress on `st0` (status `warehouse`). -/
def st1 : DBState :=
  ⟨[("order-1", .warehouse)], [⟨0, "order-1", .warehouse, .warehouse ⟨true⟩⟩], 1⟩

/-- After creating shipping (not yet received) on `st1` (status `shipped`). -/
def st2 : DBState :=
  ⟨[("order-1", .shipped)],
   [⟨0, "order-1", .warehouse, .warehouse ⟨true⟩⟩,
    ⟨1, "order-1", .shipping, .shipping ⟨true, some 10, none⟩⟩], 2⟩

/-- Embeds `st1` after `cancelOrder`. -/
def st1c : DBState :=
  ⟨[("order-1", .cancelled)], [⟨0, "order-1", .warehouse, .warehouse ⟨true⟩⟩], 1⟩

/-- Embeds `st2` after `cancelOrder`. -/
def st2c : DBState :=
  ⟨[("order-1", .cancelled)],
   [⟨0, "order-1", .warehouse, .warehouse ⟨true⟩⟩,
    ⟨1, "order-1", .shipping, .shipping ⟨true, some 10, none⟩⟩], 2⟩

/-- After creating shipping with `date_received` on `st1` (status `delivered`). -/
def stB2 : DBState :=
  ⟨[("order-1", .delivered)],
   [⟨0, "order-1", .warehouse, .warehouse ⟨true⟩⟩,
    ⟨1, "order-1", .shipping, .shipping ⟨true, some 10, some 20⟩⟩], 2⟩

/-- After creating applied progress on `stB2`. -/
def stB3 : DBState :=
  ⟨[("order-1", .delivered)],
   [⟨0, "order-1", .warehouse, .warehouse ⟨true⟩⟩,
    ⟨1, "order-1", .shipping, .shipping ⟨true, some 10, some 20⟩⟩,
    ⟨2, "order-1", .applied, .applied ⟨10, none⟩⟩], 3⟩

/-- After creating result progress on `stB3`. -/
def stB4 : DBState :=
  ⟨[("order-1", .delivered)],
   [⟨0, "order-1", .warehouse, .warehouse ⟨true⟩⟩,
    ⟨1, "order-1", .shipping, .shipping ⟨true, some 10, some 20⟩⟩,
    ⟨2, "order-1", .applied, .applied ⟨10, none⟩⟩,
    ⟨3, "order-1", .result, .result ⟨true, some 50⟩⟩], 4⟩

/-- Embeds `stB4` after `completeOrder` (status `completed`). -/
def stB5 : DBState :=
  ⟨[("order-1", .completed)],
   [⟨0, "order-1", .warehouse, .warehouse ⟨true⟩⟩,
    ⟨1, "order-1", .shipping, .shipping ⟨true, some 10, some 20⟩⟩,
    ⟨2, "order-1", .applied, .applied ⟨10, none⟩⟩,
    ⟨3, "order-1", .result, .result ⟨true, some 50⟩⟩], 4⟩

/-- Embeds `stB5` after the warehouse row is updated to `{status: false}`: the
update succeeds on the completed order and re-derivation overwrites the
`completed` status with `delivered`. -/
def stB6 : DBState :=
  ⟨[("order-1", .delivered)],
   [⟨0, "order-1", .warehouse, .warehouse ⟨false⟩⟩,
    ⟨1, "order-1", .shipping, .shipping ⟨true, some 10, some 20⟩⟩,
    ⟨2, "order-1", .applied, .applied ⟨10, none⟩⟩,
    ⟨3, "order-1", .result, .result ⟨true, some 50⟩⟩], 4⟩

/-- Embeds `st2` after deleting the warehouse row (id 0): the delete succeeds
although a shipping row exists. -/
def st2d : DBState :=
  ⟨[("order-1", .shipped)],
   [⟨1, "order-1", .shipping, .shipping ⟨true, some 10, none⟩⟩], 2⟩

/-- Embeds `st1c` after deleting the warehouse row (id 0): the delete succeeds
on the cancelled order and re-derivation resets the status to `pending`. -/
def st1cd : DBState := ⟨[("order-1", .pending)], [], 1⟩

/-! ## Generic `Except` lemmas -/

theorem exceptSeq_ok_iff {ε α : Type} {a : Except ε Unit} {f : Unit → Except ε α}
    {x : α} : (a >>= f) = .ok x ↔ a = .ok () ∧ f () = .ok x := by
  cases a with
  | error e => simp [Bind.bind, Except.bind]
  | ok u => cases u; simp [Bind.bind, Except.bind]

theorem exceptSeq_error_iff {ε α : Type} {a : Except ε Unit} {f : Unit → Except ε α}
    {e : ε} : (a >>= f) = .error e ↔ a = .error e ∨ (a = .ok () ∧ f () = .error e) := by
  cases a with
  | error e' => simp [Bind.bind, Except.bind]
  | ok u => cases u; simp [Bind.bind, Except.bind]

theorem exceptPure_ok_iff {ε α : Type} {x y : α} :
    (pure x : Except ε α) = .ok y ↔ x = y := by
  simp [Pure.pure, Except.pure]

theorem exceptMap_ok_iff {ε α : Type} {a : Except ε Unit} {g : Unit → α}
    {x : α} : (g <$> a) = .ok x ↔ a = .ok () ∧ g () = x := by
  cases a with
  | error e => simp [Functor.map, Except.map]
  | ok u => cases u; simp [Functor.map, Except.map]

/-! ## Validator and business-rule characterizations -/

theorem validateOrderS_ok_iff {s : DBState} {oid : String} :
    validateOrderS s oid = .ok () ↔
      ∃ st, findOrder s oid = some st ∧ st ≠ .cancelled := by
  unfold validateOrderS
  cases h : findOrder s oid with
  | none => simp
  | some st => by_cases hc : st = .cancelled <;> simp [hc]

theorem validateOrderS_cancelled {s : DBState} {oid : String}
    (h : findOrder s oid = some .cancelled) :
    validateOrderS s oid = .error .cancelledOrder := by
  unfold validateOrderS
  rw [h]
  simp

theorem validateShippingData_received_status {now : Int} {d : ShippingData}
    (h : validateShippingData now d = .ok ()) :
    d.date_received.isSome → d.status = true := by
  intro hr
  unfold validateShippingData at h
  rw [exceptSeq_ok_iff] at h
  obtain ⟨-, h⟩ := h
  rw [exceptSeq_ok_iff] at h
  obtain ⟨-, h⟩ := h
  by_contra hs
  rw [Bool.not_eq_true] at hs
  unfold requireStatusForReceived at h
  rw [hr, hs] at h
  simp at h

theorem validateResultData_ok_necessary {d : ResultData}
    (h : validateResultData d = .ok ()) :
    (d.status = true → d.yield_amount.isSome) ∧
    (d.status = false → d.yield_amount = none ∨ d.yield_amount = some 0) := by
  obtain ⟨st, y⟩ := d
  unfold validateResultData at h
  rw [exceptSeq_ok_iff] at h
  obtain ⟨h1, h2⟩ := h
  unfold requireYieldPresent at h1
  unfold checkYieldRange at h2
  cases st with
  | true =>
    cases y with
    | none => simp at h1
    | some v => exact ⟨fun _ => rfl, by simp⟩
  | false =>
    cases y with
    | none => exact ⟨by simp, fun _ => Or.inl rfl⟩
    | some v =>
      refine ⟨by simp, fun _ => Or.inr ?_⟩
      simp only [Bool.not_false, Bool.true_and] at h2
      split_ifs at h2 with hv1 hv2 hv3
      have h0 : ¬ 0 < v := by simpa using hv3
      have hz : v = 0 := le_antisymm (not_lt.mp h0) (not_lt.mp hv1)
      rw [hz]

theorem warehouseBusinessRules_ok_iff {s : DBState} {oid : String} :
    warehouseBusinessRules s oid = .ok () ↔
      checkExistingProgress s oid .warehouse = false := by
  unfold warehouseBusinessRules requireNoExisting
  cases h : checkExistingProgress s oid .warehouse <;> simp [h]

theorem shippingBusinessRules_ok_iff {s : DBState} {oid : String} :
    shippingBusinessRules s oid = .ok () ↔
      checkExistingProgress s oid .shipping = false ∧
      ∃ wp, getStageProgressData s oid .warehouse = some wp ∧
        wp.data.jsStatus = true := by
  unfold shippingBusinessRules requireNoExisting requireWarehouseComplete
  rw [exceptSeq_ok_iff]
  cases hx : checkExistingProgress s oid .shipping <;>
    cases hw : getStageProgressData s oid .warehouse <;> simp

theorem appliedBusinessRules_ok_iff {s : DBState} {oid : String} :
    appliedBusinessRules s oid = .ok () ↔
      checkExistingProgress s oid .applied = false ∧
      ∃ sp, getStageProgressData s oid .shipping = some sp ∧
        sp.data.jsStatus = true ∧ sp.data.jsDateShipping.isSome ∧
        sp.data.jsDateReceived.isSome := by
  unfold appliedBusinessRules requireNoExisting requireShippingDelivered
  rw [exceptSeq_ok_iff]
  cases hx : checkExistingProgress s oid .applied <;>
    cases hs : getStageProgressData s oid .shipping <;> simp
  case false.some sp =>
    cases h1 : sp.data.jsStatus <;>
      cases h2 : sp.data.jsDateShipping <;>
        cases h3 : sp.data.jsDateReceived <;> simp [h1, h2, h3]

theorem resultBusinessRules_ok_iff {s : DBState} {oid : String} :
    resultBusinessRules s oid = .ok () ↔
      checkExistingProgress s oid .result = false ∧
      ∃ ap, getStageProgressData s oid .applied = some ap ∧
        0 < ap.data.jsEstArea.getD 0 := by
  unfold resultBusinessRules requireNoExisting requireAppliedComplete
  rw [exceptSeq_ok_iff]
  cases hx : checkExistingProgress s oid .result <;>
    cases ha : getStageProgressData s oid .applied <;> simp

/-! ## Operation extraction lemmas -/

theorem warehouseCreate_ok_iff {s s' : DBState} {oid : String} {d : WarehouseData} :
    warehouseCreate s oid d = .ok s' ↔
      validateOrderS s oid = .ok () ∧ warehouseBusinessRules s oid = .ok () ∧
      updateOrderStatusS (insertRecord s oid .warehouse (.warehouse d)) oid = s' := by
  unfold warehouseCreate validateWarehouseData
  simp [exceptSeq_ok_iff, exceptPure_ok_iff, exceptMap_ok_iff, and_assoc]

theorem shippingCreate_ok_iff {now : Int} {s s' : DBState} {oid : String}
    {d : ShippingData} :
    shippingCreate now s oid d = .ok s' ↔
      validateOrderS s oid = .ok () ∧ validateShippingData now d = .ok () ∧
      shippingBusinessRules s oid = .ok () ∧
      updateOrderStatusS (insertRecord s oid .shipping (.shipping d)) oid = s' := by
  unfold shippingCreate
  simp [exceptSeq_ok_iff, exceptPure_ok_iff, exceptMap_ok_iff, and_assoc]

theorem appliedCreate_ok_iff {s s' : DBState} {oid : String} {d : AppliedData} :
    appliedCreate s oid d = .ok s' ↔
      validateOrderS s oid = .ok () ∧ zodParseApplied d = .ok () ∧
      validateAppliedData d = .ok () ∧ appliedBusinessRules s oid = .ok () ∧
      updateOrderStatusS (insertRecord s oid .applied (.applied d)) oid = s' := by
  unfold appliedCreate
  simp [exceptSeq_ok_iff, exceptPure_ok_iff, exceptMap_ok_iff, and_assoc]

theorem resultCreate_ok_iff {s s' : DBState} {oid : String} {d : ResultData} :
    resultCreate s oid d = .ok s' ↔
      validateOrderS s oid = .ok () ∧ validateResultData d = .ok () ∧
      resultBusinessRules s oid = .ok () ∧
      updateOrderStatusS (insertRecord s oid .result (.result d)) oid = s' := by
  unfold resultCreate
  simp [exceptSeq_ok_iff, exceptPure_ok_iff, exceptMap_ok_iff, and_assoc]

theorem warehouseUpdate_ok_iff {s s' : DBState} {id : Nat} {oid : String}
    {d : WarehouseData} :
    warehouseUpdate s id oid d = .ok s' ↔
      validateOrderS s oid = .ok () ∧ requireRecord s id .warehouse = .ok () ∧
      updateOrderStatusS (replaceData s id (.warehouse d)) oid = s' := by
  unfold warehouseUpdate validateWarehouseData
  simp [exceptSeq_ok_iff, exceptPure_ok_iff, exceptMap_ok_iff, and_assoc]

theorem shippingUpdate_ok_iff {now : Int} {s s' : DBState} {id : Nat}
    {oid : String} {d : ShippingData} :
    shippingUpdate now s id oid d = .ok s' ↔
      validateOrderS s oid = .ok () ∧ validateShippingData now d = .ok () ∧
      requireRecord s id .shipping = .ok () ∧
      updateOrderStatusS (replaceData s id (.shipping d)) oid = s' := by
  unfold shippingUpdate
  simp [exceptSeq_ok_iff, exceptPure_ok_iff, exceptMap_ok_iff, and_assoc]

theorem appliedUpdate_ok_iff {s s' : DBState} {id : Nat} {oid : String}
    {d : AppliedData} :
    appliedUpdate s id oid d = .ok s' ↔
      validateOrderS s oid = .ok () ∧ zodParseApplied d = .ok () ∧
      validateAppliedData d = .ok () ∧ requireRecord s id .applied = .ok () ∧
      updateOrderStatusS (replaceData s id (.applied d)) oid = s' := by
  unfold appliedUpdate
  simp [exceptSeq_ok_iff, exceptPure_ok_iff, exceptMap_ok_iff, and_assoc]

theorem resultUpdate_ok_iff {s s' : DBState} {id : Nat} {oid : String}
    {d : ResultData} :
    resultUpdate s id oid d = .ok s' ↔
      validateOrderS s oid = .ok () ∧ validateResultData d = .ok () ∧
      requireRecord s id .result = .ok () ∧
      updateOrderStatusS (replaceData s id (.result d)) oid = s' := by
  unfold resultUpdate
  simp [exceptSeq_ok_iff, exceptPure_ok_iff, exceptMap_ok_iff, and_assoc]

theorem warehouseDelete_ok_iff {s s' : DBState} {id : Nat} :
    warehouseDelete s id = .ok s' ↔
      ∃ r, findById s id = some r ∧
        updateOrderStatusS (removeRecord s id) r.order_id = s' := by
  unfold warehouseDelete
  cases h : findById s id <;> simp [eq_comm]

theorem shippingDelete_ok_iff {s s' : DBState} {id : Nat} :
    shippingDelete s id = .ok s' ↔
      ∃ r, findById s id = some r ∧
        (s.progress.find? (fun r' => r'.order_id == r.order_id &&
          (r'.stage == Stage.applied || r'.stage == Stage.result))) = none ∧
        updateOrderStatusS (removeRecord s id) r.order_id = s' := by
  unfold shippingDelete
  cases h : findById s id with
  | none => simp
  | some r =>
    dsimp only
    cases hdep : s.progress.find? (fun r' => r'.order_id == r.order_id &&
        (r'.stage == Stage.applied || r'.stage == Stage.result)) <;>
      simp [hdep, eq_comm]

theorem appliedDelete_ok_iff {s s' : DBState} {id : Nat} :
    appliedDelete s id = .ok s' ↔
      ∃ r, findById s id = some r ∧
        (s.progress.find? (fun r' => r'.order_id == r.order_id &&
          r'.stage == Stage.result)) = none ∧
        updateOrderStatusS (removeRecord s id) r.order_id = s' := by
  unfold appliedDelete
  cases h : findById s id with
  | none => simp
  | some r =>
    dsimp only
    cases hdep : s.progress.find? (fun r' => r'.order_id == r.order_id &&
        r'.stage == Stage.result) <;> simp [hdep, eq_comm]

theorem resultDelete_ok_iff {s s' : DBState} {id : Nat} :
    resultDelete s id = .ok s' ↔
      ∃ r, findById s id = some r ∧
        updateOrderStatusS (removeRecord s id) r.order_id = s' := by
  unfold resultDelete
  cases h : findById s id <;> simp [eq_comm]

theorem completeOrder_ok_iff {s s' : DBState} {oid : String} :
    completeOrder s oid = .ok s' ↔
      ∃ st, findOrder s oid = some st ∧ st ≠ .completed ∧ st ≠ .cancelled ∧
        ∃ rp, getStageProgressData s oid .result = some rp ∧
          rp.data.jsStatus = true ∧ setOrderStatus s oid .completed = s' := by
  unfold completeOrder
  cases ho : findOrder s oid with
  | none => simp
  | some st =>
    dsimp only
    by_cases h1 : st = .completed
    · simp [h1]
    · by_cases h2 : st = .cancelled
      · simp [h1, h2]
      · rw [if_neg h1, if_neg h2]
        cases hr : getStageProgressData s oid .result with
        | none => simp [h1, h2]
        | some rp =>
          dsimp only
          cases hs : rp.data.jsStatus <;> simp [h1, h2, hs]

theorem cancelOrder_ok_iff {s s' : DBState} {oid : String} :
    cancelOrder s oid = .ok s' ↔
      ∃ st, findOrder s oid = some st ∧ st ≠ .cancelled ∧ st ≠ .completed ∧
        setOrderStatus s oid .cancelled = s' := by
  unfold cancelOrder
  cases ho : findOrder s oid with
  | none => simp
  | some st =>
    dsimp only
    by_cases h1 : st = .cancelled
    · simp [h1]
    · by_cases h2 : st = .completed
      · simp [h1, h2]
      · rw [if_neg h1, if_neg h2]
        simp [h1, h2, eq_comm]

/-! ## Shape of the store after each operation -/

theorem updateOrderStatusS_progress {s : DBState} {oid : String} :
    (updateOrderStatusS s oid).progress = s.progress := rfl

theorem setOrderStatus_progress {s : DBState} {oid : String} {st : OrderStatus} :
    (setOrderStatus s oid st).progress = s.progress := rfl

theorem createProgress_ok_shape {now : Int} {s s' : DBState} {inp : ProgressInput}
    (h : createProgress now s inp = .ok s') :
    s'.progress = s.progress ++ [⟨s.nextId, inp.order_id, inp.data.tag, inp.data⟩] ∧
    checkExistingProgress s inp.order_id inp.data.tag = false ∧
    validateOrderS s inp.order_id = .ok () ∧
    payloadValid now inp.data := by
  obtain ⟨oid, data⟩ := inp
  cases data with
  | warehouse d =>
    obtain ⟨h1, h2, h3⟩ := warehouseCreate_ok_iff.mp h
    exact ⟨by rw [← h3]; rfl, warehouseBusinessRules_ok_iff.mp h2, h1, rfl⟩
  | shipping d =>
    obtain ⟨h1, h2, h3, h4⟩ := shippingCreate_ok_iff.mp h
    exact ⟨by rw [← h4]; rfl, (shippingBusinessRules_ok_iff.mp h3).1, h1, h2⟩
  | applied d =>
    obtain ⟨h1, h2, h3, h4, h5⟩ := appliedCreate_ok_iff.mp h
    exact ⟨by rw [← h5]; rfl, (appliedBusinessRules_ok_iff.mp h4).1, h1, h2, h3⟩
  | result d =>
    obtain ⟨h1, h2, h3, h4⟩ := resultCreate_ok_iff.mp h
    exact ⟨by rw [← h4]; rfl, (resultBusinessRules_ok_iff.mp h3).1, h1, h2⟩

theorem updateProgress_ok_shape {now : Int} {s s' : DBState} {id : Nat}
    {inp : ProgressInput} (h : updateProgress now s id inp = .ok s') :
    s'.progress = s.progress.map
      (fun r => if r.id == id then { r with data := inp.data } else r) ∧
    validateOrderS s inp.order_id = .ok () ∧
    payloadValid now inp.data := by
  obtain ⟨oid, data⟩ := inp
  cases data with
  | warehouse d =>
    obtain ⟨h1, h2, h3⟩ := warehouseUpdate_ok_iff.mp h
    exact ⟨by rw [← h3]; rfl, h1, rfl⟩
  | shipping d =>
    obtain ⟨h1, h2, h3, h4⟩ := shippingUpdate_ok_iff.mp h
    exact ⟨by rw [← h4]; rfl, h1, h2⟩
  | applied d =>
    obtain ⟨h1, h2, h3, h4, h5⟩ := appliedUpdate_ok_iff.mp h
    exact ⟨by rw [← h5]; rfl, h1, h2, h3⟩
  | result d =>
    obtain ⟨h1, h2, h3, h4⟩ := resultUpdate_ok_iff.mp h
    exact ⟨by rw [← h4]; rfl, h1, h2⟩

theorem deleteOrderProgress_ok_shape {s s' : DBState} {id : Nat}
    (h : deleteOrderProgress s id = .ok s') :
    s'.progress = s.progress.filter (fun r => r.id != id) := by
  unfold deleteOrderProgress at h
  cases hf : findById s id with
  | none => rw [hf] at h; exact absurd h (by simp)
  | some r =>
    rw [hf] at h
    dsimp only at h
    cases hst : r.stage <;> rw [hst] at h
    · obtain ⟨r', -, h3⟩ := warehouseDelete_ok_iff.mp h
      rw [← h3]; rfl
    · obtain ⟨r', -, -, h3⟩ := shippingDelete_ok_iff.mp h
      rw [← h3]; rfl
    · obtain ⟨r', -, -, h3⟩ := appliedDelete_ok_iff.mp h
      rw [← h3]; rfl
    · obtain ⟨r', -, h3⟩ := resultDelete_ok_iff.mp h
      rw [← h3]; rfl

theorem completeOrder_ok_shape {s s' : DBState} {oid : String}
    (h : completeOrder s oid = .ok s') : s'.progress = s.progress := by
  obtain ⟨st, -, -, -, rp, -, -, h7⟩ := completeOrder_ok_iff.mp h
  rw [← h7]; rfl

theorem cancelOrder_ok_shape {s s' : DBState} {oid : String}
    (h : cancelOrder s oid = .ok s') : s'.progress = s.progress := by
  obtain ⟨st, -, -, -, h5⟩ := cancelOrder_ok_iff.mp h
  rw [← h5]; rfl

/-! ## Membership helpers -/

theorem getStage_some_spec {s : DBState} {oid : String} {st : Stage}
    {r : ProgressRecord} (h : getStageProgressData s oid st = some r) :
    r ∈ s.progress ∧ r.order_id = oid ∧ r.stage = st := by
  unfold getStageProgressData at h
  have hm := List.mem_of_find?_eq_some h
  have hp := List.find?_some h
  simp at hp
  exact ⟨hm, hp.1, hp.2⟩

theorem getStage_none_of_checkExisting_false {s : DBState} {oid : String}
    {st : Stage} (h : checkExistingProgress s oid st = false) :
    getStageProgressData s oid st = none := by
  unfold checkExistingProgress at h
  cases hf : getStageProgressData s oid st with
  | none => rfl
  | some x => rw [hf] at h; simp at h

theorem not_mem_of_checkExisting_false {s : DBState} {oid : String} {st : Stage}
    (h : checkExistingProgress s oid st = false) :
    ∀ r ∈ s.progress, ¬(r.order_id = oid ∧ r.stage = st) := by
  have hn := getStage_none_of_checkExisting_false h
  unfold getStageProgressData at hn
  rw [List.find?_eq_none] at hn
  intro r hr hcon
  have := hn r hr
  simp [hcon.1, hcon.2] at this

/-! ## Invariants of reachable states -/

theorem reachable_uniq {s : DBState} (h : Reachable s) : UniqueStageRecords s := by
  induction h with
  | init orders => intro r1 h1; simp at h1
  | create now inp hr hok ih =>
    obtain ⟨hprog, hchk, -, -⟩ := createProgress_ok_shape hok
    intro r1 h1 r2 h2 hoid hstage
    rw [hprog, List.mem_append, List.mem_singleton] at h1 h2
    rcases h1 with h1 | h1 <;> rcases h2 with h2 | h2
    · exact ih r1 h1 r2 h2 hoid hstage
    · subst h2
      exact absurd ⟨hoid, hstage⟩ (not_mem_of_checkExisting_false hchk r1 h1)
    · subst h1
      exact absurd ⟨hoid.symm, hstage.symm⟩
        (not_mem_of_checkExisting_false hchk r2 h2)
    · rw [h1, h2]
  | update now id inp hr hok ih =>
    obtain ⟨hprog, -, -⟩ := updateProgress_ok_shape hok
    intro r1 h1 r2 h2 hoid hstage
    rw [hprog, List.mem_map] at h1 h2
    obtain ⟨a1, ha1, e1⟩ := h1
    obtain ⟨a2, ha2, e2⟩ := h2
    have f1 : ∀ a : ProgressRecord,
        ((if a.id == id then { a with data := inp.data } else a) : ProgressRecord).order_id
          = a.order_id ∧
        ((if a.id == id then { a with data := inp.data } else a) : ProgressRecord).stage
          = a.stage := by
      intro a; by_cases ha : a.id == id <;> simp [ha]
    have e1' := f1 a1
    have e2' := f1 a2
    rw [e1] at e1'
    rw [e2] at e2'
    have : a1 = a2 := by
      apply ih a1 ha1 a2 ha2
      · rw [← e1'.1, ← e2'.1, hoid]
      · rw [← e1'.2, ← e2'.2, hstage]
    rw [← e1, ← e2, this]
  | del id hr hok ih =>
    have hprog := deleteOrderProgress_ok_shape hok
    intro r1 h1 r2 h2 hoid hstage
    rw [hprog] at h1 h2
    exact ih r1 (List.mem_of_mem_filter h1) r2 (List.mem_of_mem_filter h2)
      hoid hstage
  | complete oid hr hok ih =>
    have hprog := completeOrder_ok_shape hok
    intro r1 h1 r2 h2
    rw [hprog] at h1 h2
    exact ih r1 h1 r2 h2
  | cancel oid hr hok ih =>
    have hprog := cancelOrder_ok_shape hok
    intro r1 h1 r2 h2
    rw [hprog] at h1 h2
    exact ih r1 h1 r2 h2

theorem payloadValid_received {now : Int} {d : StageData} (h : payloadValid now d) :
    d.jsDateReceived.isSome → d.jsStatus = true := by
  cases d with
  | shipping d => exact validateShippingData_received_status h
  | warehouse d => simp [StageData.jsDateReceived]
  | applied d => simp [StageData.jsDateReceived]
  | result d => simp [StageData.jsDateReceived]

theorem reachable_received {s : DBState} (h : Reachable s) :
    ReceivedImpliesStatus s := by
  induction h with
  | init orders => intro r hr; simp at hr
  | create now inp hr hok ih =>
    obtain ⟨hprog, -, -, hval⟩ := createProgress_ok_shape hok
    intro r hmem hrecv
    rw [hprog, List.mem_append, List.mem_singleton] at hmem
    rcases hmem with hm | hm
    · exact ih r hm hrecv
    · subst hm
      exact payloadValid_received hval hrecv
  | update now id inp hr hok ih =>
    obtain ⟨hprog, -, hval⟩ := updateProgress_ok_shape hok
    intro r hmem hrecv
    rw [hprog, List.mem_map] at hmem
    obtain ⟨a, ha, e⟩ := hmem
    by_cases hid : a.id == id
    · rw [if_pos hid] at e
      subst e
      exact payloadValid_received hval hrecv
    · rw [if_neg hid] at e
      subst e
      exact ih a ha hrecv
  | del id hr hok ih =>
    have hprog := deleteOrderProgress_ok_shape hok
    intro r hmem hrecv
    rw [hprog] at hmem
    exact ih r (List.mem_of_mem_filter hmem) hrecv
  | complete oid hr hok ih =>
    have hprog := completeOrder_ok_shape hok
    intro r hmem
    rw [hprog] at hmem
    exact ih r hmem
  | cancel oid hr hok ih =>
    have hprog := cancelOrder_ok_shape hok
    intro r hmem
    rw [hprog] at hmem
    exact ih r hmem

/-! ## The derivation cascade under stage uniqueness -/

theorem find?_stage_mem {l : List ProgressRecord} {st : Stage}
    {r : ProgressRecord} (h : l.find? (fun x => x.stage == st) = some r) :
    r ∈ l ∧ r.stage = st := by
  have hm := List.mem_of_find?_eq_some h
  have hp := List.find?_some h
  simp at hp
  exact ⟨hm, hp⟩

theorem any_stage_eq_of_uniq {l : List ProgressRecord}
    (hu : ∀ r1 ∈ l, ∀ r2 ∈ l, r1.stage = r2.stage → r1 = r2)
    {st : Stage} {sp : ProgressRecord}
    (hf : l.find? (fun x => x.stage == st) = some sp)
    (p : ProgressRecord → Bool) :
    (l.any fun x => x.stage == st && p x) = p sp := by
  obtain ⟨hm, hs⟩ := find?_stage_mem hf
  cases hp : p sp with
  | true =>
    rw [List.any_eq_true]
    exact ⟨sp, hm, by simp [hs, hp]⟩
  | false =>
    rw [List.any_eq_false]
    intro x hx
    simp only [Bool.and_eq_true, beq_iff_eq, not_and]
    intro hxs
    have : x = sp := hu x hx sp hm (by rw [hxs, hs])
    rw [this, hp]
    simp

theorem any_stage_false_of_none {l : List ProgressRecord} {st : Stage}
    (hf : l.find? (fun x => x.stage == st) = none) (p : ProgressRecord → Bool) :
    (l.any fun x => x.stage == st && p x) = false := by
  rw [List.find?_eq_none] at hf
  rw [List.any_eq_false]
  intro x hx
  simp only [Bool.and_eq_true, beq_iff_eq, not_and]
  intro hxs
  have := hf x hx
  simp [hxs] at this

theorem warehouseBranch_eq {l : List ProgressRecord}
    (hu : ∀ r1 ∈ l, ∀ r2 ∈ l, r1.stage = r2.stage → r1 = r2) :
    warehouseBranch l =
      (if l.any (fun r => r.stage == Stage.warehouse && r.data.jsStatus) then
        OrderStatus.warehouse else .pending) := by
  unfold warehouseBranch
  cases hw : l.find? (fun x => x.stage == Stage.warehouse) with
  | none => rw [any_stage_false_of_none hw]; simp
  | some wp =>
    rw [any_stage_eq_of_uniq hu hw (fun x => x.data.jsStatus)]

theorem determineOrderStatus_eq_deriveSpec {l : List ProgressRecord}
    (hu : ∀ r1 ∈ l, ∀ r2 ∈ l, r1.stage = r2.stage → r1 = r2) :
    determineOrderStatus l = deriveSpec l := by
  unfold determineOrderStatus deriveSpec
  rw [warehouseBranch_eq hu]
  cases hf : l.find? (fun x => x.stage == Stage.shipping) with
  | none =>
    rw [any_stage_false_of_none hf (fun x => x.data.jsDateReceived.isSome),
      any_stage_false_of_none hf
        (fun x => x.data.jsStatus && x.data.jsDateShipping.isSome)]
    simp
  | some sp =>
    rw [any_stage_eq_of_uniq hu hf (fun x => x.data.jsDateReceived.isSome),
      any_stage_eq_of_uniq hu hf
        (fun x => x.data.jsStatus && x.data.jsDateShipping.isSome)]

/-! ## Error-side helpers -/

theorem except_error_of_ne_ok {X : Except PErr Unit} (h : X ≠ .ok ()) :
    ∃ e, X = .error e := by
  cases X with
  | error e => exact ⟨e, rfl⟩
  | ok u => cases u; exact absurd rfl h

theorem getStage_eq_of_uniq {s : DBState} {oid : String} {st : Stage}
    {r : ProgressRecord} (hu : UniqueStageRecords s) (hm : r ∈ s.progress)
    (ho : r.order_id = oid) (hs : r.stage = st) :
    getStageProgressData s oid st = some r := by
  cases hg : getStageProgressData s oid st with
  | none =>
    unfold getStageProgressData at hg
    rw [List.find?_eq_none] at hg
    have := hg r hm
    simp [ho, hs] at this
  | some x =>
    obtain ⟨hxm, hxo, hxs⟩ := getStage_some_spec hg
    rw [hu x hxm r hm (by rw [hxo, ho]) (by rw [hxs, hs])]

theorem warehouseBranch_ne_delivered {l : List ProgressRecord} :
    warehouseBranch l ≠ .delivered := by
  unfold warehouseBranch
  cases l.find? (fun r => r.stage == Stage.warehouse) with
  | none => simp
  | some wp => cases h : wp.data.jsStatus <;> simp [h]

theorem shippingDateChecks_ok_iff {now : Int} {d : ShippingData} :
    shippingDateChecks now d = .ok () ↔
      (∀ ds, d.date_shipping = some ds → ds ≤ now) ∧
      (∀ dr, d.date_received = some dr → dr ≤ now ∧
        ∀ ds, d.date_shipping = some ds → ds ≤ dr) := by
  obtain ⟨st, dsh, drc⟩ := d
  unfold shippingDateChecks checkDateShipping checkDateReceived
  cases dsh <;> cases drc <;> simp only [exceptSeq_ok_iff]
  all_goals try (split_ifs <;> simp_all)
  all_goals simp_all

/-! ## Computed failure modes of the create pipeline -/

theorem warehouseCreate_conflict {s : DBState} {oid : String} {d : WarehouseData}
    (hord : validateOrderS s oid = .ok ())
    (hex : checkExistingProgress s oid .warehouse = true) :
    warehouseCreate s oid d = .error (.alreadyExists .warehouse) := by
  unfold warehouseCreate validateWarehouseData warehouseBusinessRules
    requireNoExisting
  rw [hord, hex]
  rfl

theorem shippingCreate_conflict {now : Int} {s : DBState} {oid : String}
    {d : ShippingData} (hord : validateOrderS s oid = .ok ())
    (hval : validateShippingData now d = .ok ())
    (hex : checkExistingProgress s oid .shipping = true) :
    shippingCreate now s oid d = .error (.alreadyExists .shipping) := by
  unfold shippingCreate shippingBusinessRules requireNoExisting
  rw [hord, hval, hex]
  rfl

theorem appliedCreate_conflict {s : DBState} {oid : String} {d : AppliedData}
    (hord : validateOrderS s oid = .ok ())
    (hzod : zodParseApplied d = .ok ())
    (hval : validateAppliedData d = .ok ())
    (hex : checkExistingProgress s oid .applied = true) :
    appliedCreate s oid d = .error (.alreadyExists .applied) := by
  unfold appliedCreate appliedBusinessRules requireNoExisting
  rw [hord, hzod, hval, hex]
  rfl

theorem resultCreate_conflict {s : DBState} {oid : String} {d : ResultData}
    (hord : validateOrderS s oid = .ok ())
    (hval : validateResultData d = .ok ())
    (hex : checkExistingProgress s oid .result = true) :
    resultCreate s oid d = .error (.alreadyExists .result) := by
  unfold resultCreate resultBusinessRules requireNoExisting
  rw [hord, hval, hex]
  rfl

theorem createProgress_cancelled {now : Int} {s : DBState} {inp : ProgressInput}
    (hc : findOrder s inp.order_id = some .cancelled) :
    createProgress now s inp = .error .cancelledOrder := by
  obtain ⟨oid, data⟩ := inp
  have hv := validateOrderS_cancelled hc
  cases data with
  | warehouse d => unfold createProgress warehouseCreate; rw [hv]; rfl
  | shipping d => unfold createProgress shippingCreate; rw [hv]; rfl
  | applied d => unfold createProgress appliedCreate; rw [hv]; rfl
  | result d => unfold createProgress resultCreate; rw [hv]; rfl

theorem updateProgress_cancelled {now : Int} {s : DBState} {id : Nat}
    {inp : ProgressInput} (hc : findOrder s inp.order_id = some .cancelled) :
    updateProgress now s id inp = .error .cancelledOrder := by
  obtain ⟨oid, data⟩ := inp
  have hv := validateOrderS_cancelled hc
  cases data with
  | warehouse d => unfold updateProgress warehouseUpdate; rw [hv]; rfl
  | shipping d => unfold updateProgress shippingUpdate; rw [hv]; rfl
  | applied d => unfold updateProgress appliedUpdate; rw [hv]; rfl
  | result d => unfold updateProgress resultUpdate; rw [hv]; rfl

theorem appliedBusinessRules_prereq {s : DBState} {oid : String}
    (hex : checkExistingProgress s oid .applied = false)
    (hnorecv : ∀ r ∈ s.progress, r.order_id = oid → r.stage = Stage.shipping →
      r.data.jsDateReceived = none) :
    ∃ e, appliedBusinessRules s oid = .error e ∧ e.isPrerequisiteError = true := by
  unfold appliedBusinessRules requireNoExisting requireShippingDelivered
  rw [hex]
  cases hs : getStageProgressData s oid .shipping with
  | none => exact ⟨.shippingMissing, rfl, rfl⟩
  | some sp =>
    dsimp only
    obtain ⟨hm, ho, hst⟩ := getStage_some_spec hs
    have hrecv : sp.data.jsDateReceived = none := hnorecv sp hm ho hst
    by_cases hc : (!sp.data.jsStatus || sp.data.jsDateShipping.isNone) = true
    · refine ⟨.shippingIncomplete, ?_, rfl⟩
      rw [if_pos hc]
      rfl
    · refine ⟨.notDelivered, ?_, rfl⟩
      rw [if_neg hc, hrecv]
      rfl

theorem appliedCreate_error_of_rules {s : DBState} {oid : String}
    {d : AppliedData} {e : PErr} (hord : validateOrderS s oid = .ok ())
    (hzod : zodParseApplied d = .ok ())
    (hval : validateAppliedData d = .ok ())
    (hbr : appliedBusinessRules s oid = .error e) :
    appliedCreate s oid d = .error e := by
  unfold appliedCreate
  rw [hord, hzod, hval, hbr]
  rfl

theorem resultCreate_noYield {s : DBState} {oid : String}
    (hord : validateOrderS s oid = .ok ()) :
    resultCreate s oid ⟨true, none⟩ = .error .yieldRequired := by
  unfold resultCreate
  rw [hord]
  rfl

/-! ## Step equations for the concrete trace -/

theorem step_st1 : createProgress 100 st0 inpW = .ok st1 := rfl

theorem step_st2 : createProgress 100 st1 inpShipNR = .ok st2 := rfl

theorem step_st1c : cancelOrder st1 "order-1" = .ok st1c := rfl

theorem step_st2c : cancelOrder st2 "order-1" = .ok st2c := rfl

theorem step_stB2 : createProgress 100 st1 inpShipR = .ok stB2 := rfl

theorem step_stB3 : createProgress 100 stB2 inpApplied10 = .ok stB3 := rfl

theorem step_stB4 : createProgress 100 stB3 inpResult50 = .ok stB4 := rfl

theorem step_stB5 : completeOrder stB4 "order-1" = .ok stB5 := rfl

theorem reachable_st0 : Reachable st0 := Reachable.init _

theorem reachable_st1 : Reachable st1 :=
  Reachable.create 100 inpW reachable_st0 step_st1

theorem reachable_st2 : Reachable st2 :=
  Reachable.create 100 inpShipNR reachable_st1 step_st2

theorem reachable_st1c : Reachable st1c :=
  Reachable.cancel "order-1" reachable_st1 step_st1c

theorem reachable_st2c : Reachable st2c :=
  Reachable.cancel "order-1" reachable_st2 step_st2c

theorem reachable_stB2 : Reachable stB2 :=
  Reachable.create 100 inpShipR reachable_st1 step_stB2

theorem reachable_stB3 : Reachable stB3 :=
  Reachable.create 100 inpApplied10 reachable_stB2 step_stB3

theorem reachable_stB4 : Reachable stB4 :=
  Reachable.create 100 inpResult50 reachable_stB3 step_stB4

theorem reachable_stB5 : Reachable stB5 :=
  Reachable.complete "order-1" reachable_stB4 step_stB5


/-! ## Claims -/

/-- Claim C1: For every order and every set of its progress records (at most
one record per stage, per the data-model invariant), the implementation's
status derivation `determineOrderStatus` agrees with the specification's
cascade `deriveSpec`: `delivered` if a shipping record has `date_received`
set; otherwise `shipped` if a shipping record has `status == true` and
`date_shipping` set; otherwise `warehouse` if a warehouse record has
`status == true`; otherwise `pending`. -/
theorem claim_C1_status_derivation (l : List ProgressRecord)
    (hu : ∀ r1 ∈ l, ∀ r2 ∈ l, r1.stage = r2.stage → r1 = r2) :
    determineOrderStatus l = deriveSpec l :=
  determineOrderStatus_eq_deriveSpec hu

/-- Claim C1, witness: The cascade evaluated on the concrete four-record
state `stB4` (its shipping record has `date_received`, so both sides give
`delivered`). -/
theorem claim_C1_status_derivation_witness :
    determineOrderStatus stB4.progress = deriveSpec stB4.progress ∧
    deriveSpec stB4.progress = .delivered :=
  ⟨claim_C1_status_derivation stB4.progress (by decide), by decide⟩

/-- Claim C4: Stage-creation prerequisites, as necessary conditions: a
successful shipping create implies a warehouse record with `status ==
true`; a successful applied create implies a shipping record that is
complete (`status` truthy, `date_shipping` set) and delivered
(`date_received` set); a successful result create implies an applied
record with `est_applied_area > 0`. -/
theorem claim_C4_ordering (now : Int) (s s' : DBState) (oid : String) :
    (∀ d : ShippingData, createProgress now s ⟨oid, .shipping d⟩ = .ok s' →
      ∃ r ∈ s.progress, r.order_id = oid ∧ r.stage = .warehouse ∧
        r.data.jsStatus = true) ∧
    (∀ d : AppliedData, createProgress now s ⟨oid, .applied d⟩ = .ok s' →
      ∃ r ∈ s.progress, r.order_id = oid ∧ r.stage = .shipping ∧
        r.data.jsStatus = true ∧ r.data.jsDateShipping.isSome ∧
        r.data.jsDateReceived.isSome) ∧
    (∀ d : ResultData, createProgress now s ⟨oid, .result d⟩ = .ok s' →
      ∃ r ∈ s.progress, r.order_id = oid ∧ r.stage = .applied ∧
        0 < r.data.jsEstArea.getD 0) := by
  refine ⟨fun d h => ?_, fun d h => ?_, fun d h => ?_⟩
  · obtain ⟨-, -, h3, -⟩ := shippingCreate_ok_iff.mp h
    obtain ⟨-, wp, hw, hstat⟩ := shippingBusinessRules_ok_iff.mp h3
    obtain ⟨hm, ho, hs⟩ := getStage_some_spec hw
    exact ⟨wp, hm, ho, hs, hstat⟩
  · obtain ⟨-, -, -, h4, -⟩ := appliedCreate_ok_iff.mp h
    obtain ⟨-, sp, hsp, hstat, hds, hdr⟩ := appliedBusinessRules_ok_iff.mp h4
    obtain ⟨hm, ho, hs⟩ := getStage_some_spec hsp
    exact ⟨sp, hm, ho, hs, hstat, hds, hdr⟩
  · obtain ⟨-, -, h3, -⟩ := resultCreate_ok_iff.mp h
    obtain ⟨-, ap, hap, hest⟩ := resultBusinessRules_ok_iff.mp h3
    obtain ⟨hm, ho, hs⟩ := getStage_some_spec hap
    exact ⟨ap, hm, ho, hs, hest⟩

/-- Claim C4, witness: The three prerequisites instantiated on the concrete
trace: the successful shipping create on `st1`, applied create on `stB2`
and result create on `stB3`. -/
theorem claim_C4_ordering_witness :
    (∃ r ∈ st1.progress, r.order_id = "order-1" ∧ r.stage = .warehouse ∧
      r.data.jsStatus = true) ∧
    (∃ r ∈ stB2.progress, r.order_id = "order-1" ∧ r.stage = .shipping ∧
      r.data.jsStatus = true ∧ r.data.jsDateShipping.isSome ∧
      r.data.jsDateReceived.isSome) ∧
    (∃ r ∈ stB3.progress, r.order_id = "order-1" ∧ r.stage = .applied ∧
      0 < r.data.jsEstArea.getD 0) :=
  ⟨(claim_C4_ordering 100 st1 st2 "order-1").1 ⟨true, some 10, none⟩ step_st2,
   (claim_C4_ordering 100 stB2 stB3 "order-1").2.1 ⟨10, none⟩ step_stB3,
   (claim_C4_ordering 100 stB3 stB4 "order-1").2.2 ⟨true, some 50⟩ step_stB4⟩

/-- Claim C8: `completeOrder` succeeds exactly when the order exists with a
status that is neither `completed` nor `cancelled` and a result-stage
record with truthy `status` exists; on success the only change is setting
the order's status to `completed` (on failure the operation returns an
error and, in this embedding, no new state, so nothing changes). -/
theorem claim_C8_completeOrder (s : DBState) (oid : String)
    (hu : UniqueStageRecords s) :
    ((∃ s', completeOrder s oid = .ok s') ↔
      (∃ st, findOrder s oid = some st ∧ st ≠ .completed ∧ st ≠ .cancelled) ∧
      (∃ r ∈ s.progress, r.order_id = oid ∧ r.stage = .result ∧
        r.data.jsStatus = true)) ∧
    (∀ s', completeOrder s oid = .ok s' →
      s' = setOrderStatus s oid .completed) := by
  constructor
  · constructor
    · rintro ⟨s', hok⟩
      obtain ⟨st, h1, h2, h3, rp, h4, h5, -⟩ := completeOrder_ok_iff.mp hok
      obtain ⟨hm, ho, hs⟩ := getStage_some_spec h4
      exact ⟨⟨st, h1, h2, h3⟩, rp, hm, ho, hs, h5⟩
    · rintro ⟨⟨st, h1, h2, h3⟩, r, hm, ho, hs, hstat⟩
      exact ⟨setOrderStatus s oid .completed, completeOrder_ok_iff.mpr
        ⟨st, h1, h2, h3, r, getStage_eq_of_uniq hu hm ho hs, hstat, rfl⟩⟩
  · intro s' hok
    obtain ⟨st, -, -, -, rp, -, -, h7⟩ := completeOrder_ok_iff.mp hok
    exact h7.symm

/-- Claim C8, witness: `completeOrder` succeeds on the concrete state `stB4`
(delivered order, result record with `status: true`), and the success
conditions hold there. -/
theorem claim_C8_completeOrder_witness :
    (∃ st, findOrder stB4 "order-1" = some st ∧ st ≠ .completed ∧
      st ≠ .cancelled) ∧
    (∃ r ∈ stB4.progress, r.order_id = "order-1" ∧ r.stage = .result ∧
      r.data.jsStatus = true) :=
  (claim_C8_completeOrder stB4 "order-1"
    (by unfold UniqueStageRecords; decide)).1.mp ⟨stB5, step_stB5⟩

/-- Claim C9: Shipping-stage validation rejects a payload with `status ==
true` but no `date_shipping`, a `date_received` earlier than
`date_shipping`, or a `date_shipping`/`date_received` in the future; a
payload violating none of the three date constraints passes the date
checks (`shippingDateChecks`, the date-check section of
`validateShippingData`). -/
theorem claim_C9_shipping_validation (now : Int) (d : ShippingData) :
    (d.status = true → d.date_shipping = none →
      ∃ e, validateShippingData now d = .error e) ∧
    (∀ ds dr, d.date_shipping = some ds → d.date_received = some dr → dr < ds →
      ∃ e, validateShippingData now d = .error e) ∧
    (∀ ds, d.date_shipping = some ds → now < ds →
      ∃ e, validateShippingData now d = .error e) ∧
    (∀ dr, d.date_received = some dr → now < dr →
      ∃ e, validateShippingData now d = .error e) ∧
    ((∀ ds, d.date_shipping = some ds → ds ≤ now) →
     (∀ dr, d.date_received = some dr → dr ≤ now) →
     (∀ ds dr, d.date_shipping = some ds → d.date_received = some dr →
        ds ≤ dr) →
      shippingDateChecks now d = .ok ()) := by
  refine ⟨?_, ?_, ?_, ?_, ?_⟩
  · intro hst hds
    apply except_error_of_ne_ok
    intro hok
    unfold validateShippingData at hok
    rw [exceptSeq_ok_iff] at hok
    obtain ⟨-, hok⟩ := hok
    rw [exceptSeq_ok_iff] at hok
    obtain ⟨hok, -⟩ := hok
    unfold requireShippingDate at hok
    rw [hst, hds] at hok
    simp at hok
  · intro ds dr hds hdr hlt
    apply except_error_of_ne_ok
    intro hok
    unfold validateShippingData at hok
    rw [exceptSeq_ok_iff] at hok
    obtain ⟨hok, -⟩ := hok
    obtain ⟨-, h2⟩ := shippingDateChecks_ok_iff.mp hok
    have := ((h2 dr hdr).2 ds hds)
    omega
  · intro ds hds hlt
    apply except_error_of_ne_ok
    intro hok
    unfold validateShippingData at hok
    rw [exceptSeq_ok_iff] at hok
    obtain ⟨hok, -⟩ := hok
    obtain ⟨h1, -⟩ := shippingDateChecks_ok_iff.mp hok
    have := h1 ds hds
    omega
  · intro dr hdr hlt
    apply except_error_of_ne_ok
    intro hok
    unfold validateShippingData at hok
    rw [exceptSeq_ok_iff] at hok
    obtain ⟨hok, -⟩ := hok
    obtain ⟨-, h2⟩ := shippingDateChecks_ok_iff.mp hok
    have := (h2 dr hdr).1
    omega
  · intro ha hb hc
    exact shippingDateChecks_ok_iff.mpr
      ⟨ha, fun dr hdr => ⟨hb dr hdr, fun ds hds => hc ds dr hds hdr⟩⟩

/-- Claim C9, witness: A payload with `status: true` and no `date_shipping`
is rejected, and a well-formed payload passes the date checks. -/
theorem claim_C9_shipping_validation_witness :
    (∃ e, validateShippingData 0 ⟨true, none, none⟩ = .error e) ∧
    shippingDateChecks 100 ⟨true, some 10, some 20⟩ = .ok () :=
  ⟨(claim_C9_shipping_validation 0 ⟨true, none, none⟩).1 rfl rfl,
   (claim_C9_shipping_validation 100 ⟨true, some 10, some 20⟩).2.2.2.2
     (fun ds h => by simp at h; omega) (fun dr h => by simp at h; omega)
     (fun ds dr h1 h2 => by simp at h1 h2; omega)⟩

/-- Claim C10: The shipping validator rejects every payload whose
`date_received` is present while `status == false`; consequently, in
every reachable store, every stored payload with `date_received` set has
`status == true` — in particular, whenever the status derivation
classifies an order as `delivered`, the shipping record it inspected has
`status == true`. -/
theorem claim_C10_received_requires_status (now : Int) (d : ShippingData)
    (s : DBState) (hreach : Reachable s) :
    (d.date_received.isSome → d.status = false →
      ∃ e, validateShippingData now d = .error e) ∧
    (∀ r ∈ s.progress, r.data.jsDateReceived.isSome →
      r.data.jsStatus = true) ∧
    (∀ oid, determineOrderStatus (recordsFor s oid) = .delivered →
      ∃ sp ∈ s.progress, sp.order_id = oid ∧ sp.stage = .shipping ∧
        sp.data.jsDateReceived.isSome ∧ sp.data.jsStatus = true) := by
  have hinv := reachable_received hreach
  refine ⟨?_, hinv, ?_⟩
  · intro hr hst
    apply except_error_of_ne_ok
    intro hok
    have := validateShippingData_received_status hok hr
    rw [hst] at this
    exact absurd this (by simp)
  · intro oid hder
    unfold determineOrderStatus at hder
    cases hf : (recordsFor s oid).find? (fun x => x.stage == Stage.shipping) with
    | none =>
      rw [hf] at hder
      exact absurd hder warehouseBranch_ne_delivered
    | some sp =>
      rw [hf] at hder
      obtain ⟨hm, hs⟩ := find?_stage_mem hf
      have hmem : sp ∈ s.progress ∧ (sp.order_id == oid) = true :=
        List.mem_filter.mp hm
      cases hrecv : sp.data.jsDateReceived.isSome with
      | true =>
        exact ⟨sp, hmem.1, by simpa using hmem.2, hs, hrecv,
          hinv sp hmem.1 hrecv⟩
      | false =>
        dsimp only at hder
        rw [hrecv] at hder
        cases h2 : sp.data.jsStatus && sp.data.jsDateShipping.isSome with
        | true => rw [h2] at hder; simp at hder
        | false =>
          rw [h2] at hder
          simp at hder
          exact absurd hder warehouseBranch_ne_delivered

/-- Claim C10, witness: The rejection at the concrete payload
`{status: false, date_received: 5}` and the invariant on the concrete
reachable state `stB2`. -/
theorem claim_C10_received_requires_status_witness :
    (∃ e, validateShippingData 100 ⟨false, none, some 5⟩ = .error e) ∧
    (∀ r ∈ stB2.progress, r.data.jsDateReceived.isSome →
      r.data.jsStatus = true) :=
  ⟨(claim_C10_received_requires_status 100 ⟨false, none, some 5⟩ stB2
      reachable_stB2).1 rfl rfl,
   (claim_C10_received_requires_status 100 ⟨false, none, some 5⟩ stB2
      reachable_stB2).2.1⟩


/-- Claim C2, counterexample: In the reachable state `st1c` — an order that
was cancelled after its warehouse record was created — the second
warehouse create attempt fails with the cancelled-order (terminal-state)
error, not with the `already exists` conflict error that the claim
promises for every create attempt on an existing stage. -/
theorem claim_C2_counterexample :
    Reachable st1c ∧
    checkExistingProgress st1c "order-1" .warehouse = true ∧
    createProgress 100 st1c inpW = .error .cancelledOrder ∧
    PErr.cancelledOrder.isConflictError = false :=
  ⟨reachable_st1c, by decide, rfl, rfl⟩

/-- Claim C2, amended: In every reachable store at most one progress record
exists per (order, stage); a create attempt for a stage that already has
a record never succeeds (and, the operation returning only an error,
leaves the store unchanged); and it fails with the `already exists`
conflict error whenever the order check and the payload validation pass
(otherwise the earlier check's error is reported instead). -/
theorem claim_C2_uniqueness_amended (now : Int) (s : DBState)
    (inp : ProgressInput) (hreach : Reachable s) :
    UniqueStageRecords s ∧
    (checkExistingProgress s inp.order_id inp.data.tag = true →
      (∀ s', createProgress now s inp ≠ .ok s') ∧
      (validateOrderS s inp.order_id = .ok () → payloadValid now inp.data →
        createProgress now s inp = .error (.alreadyExists inp.data.tag))) := by
  refine ⟨reachable_uniq hreach, fun hex => ⟨?_, ?_⟩⟩
  · intro s' hok
    have := (createProgress_ok_shape hok).2.1
    rw [hex] at this
    exact absurd this (by simp)
  · intro hord hval
    obtain ⟨oid, data⟩ := inp
    cases data with
    | warehouse d => exact warehouseCreate_conflict hord hex
    | shipping d => exact shippingCreate_conflict hord hval hex
    | applied d => exact appliedCreate_conflict hord hval.1 hval.2 hex
    | result d => exact resultCreate_conflict hord hval hex

/-- Claim C2, witness: The amended claim at the concrete state `st2`: the
second shipping create fails with the conflict error. -/
theorem claim_C2_uniqueness_amended_witness :
    UniqueStageRecords st2 ∧
    createProgress 100 st2 inpShipNR = .error (.alreadyExists .shipping) := by
  have h := claim_C2_uniqueness_amended 100 st2 inpShipNR reachable_st2
  exact ⟨h.1, (h.2 (by decide)).2 rfl rfl⟩

/-- Claim C3, counterexample: Terminal stickiness fails on two counts in the
code: (a) in the reachable state `st1c` the order is `cancelled`, yet
`deleteOrderProgress` on its warehouse record succeeds — and the
re-derivation even resets the order's status to `pending`; (b) in the
reachable state `stB5` the order is `completed`, yet updating its
warehouse record succeeds — and re-derivation overwrites `completed` with
`delivered`. -/
theorem claim_C3_counterexample :
    (Reachable st1c ∧ findOrder st1c "order-1" = some .cancelled ∧
      deleteOrderProgress st1c 0 = .ok st1cd ∧
      findOrder st1cd "order-1" = some .pending) ∧
    (Reachable stB5 ∧ findOrder stB5 "order-1" = some .completed ∧
      updateProgress 100 stB5 0 ⟨"order-1", .warehouse ⟨false⟩⟩ = .ok stB6 ∧
      findOrder stB6 "order-1" = some .delivered) :=
  ⟨⟨reachable_st1c, rfl, rfl, rfl⟩, ⟨reachable_stB5, rfl, rfl, rfl⟩⟩

/-- Claim C3, amended: Once an order is `cancelled`, every subsequent
`createStageProgress` and `updateStageProgress` on it fails with the
terminal-state error, `completeOrder` fails with the
cancelled-is-terminal error and `cancelOrder` with the already-cancelled
error; the modular per-stage `delete` path performs no order-status check
(see the counterexample).  Once an order is `completed`, `completeOrder`
and `cancelOrder` fail, but stage mutations are not gated on `completed`
(see the counterexample). -/
theorem claim_C3_terminal_amended (now : Int) (s : DBState) (oid : String) :
    (findOrder s oid = some .cancelled →
      (∀ inp : ProgressInput, inp.order_id = oid →
        createProgress now s inp = .error .cancelledOrder) ∧
      (∀ id (inp : ProgressInput), inp.order_id = oid →
        updateProgress now s id inp = .error .cancelledOrder) ∧
      completeOrder s oid = .error .cannotCompleteCancelled ∧
      cancelOrder s oid = .error .alreadyCancelled) ∧
    (findOrder s oid = some .completed →
      completeOrder s oid = .error .alreadyCompleted ∧
      cancelOrder s oid = .error .cannotCancelCompleted) := by
  constructor
  · intro hc
    refine ⟨fun inp he => ?_, fun id inp he => ?_, ?_, ?_⟩
    · exact createProgress_cancelled (by rw [he, hc])
    · exact updateProgress_cancelled (by rw [he, hc])
    · unfold completeOrder
      rw [hc]
      rfl
    · unfold cancelOrder
      rw [hc]
      rfl
  · intro hc
    constructor
    · unfold completeOrder
      rw [hc]
      rfl
    · unfold cancelOrder
      rw [hc]
      rfl

/-- Claim C3, witness: The amended claim instantiated on the concrete
cancelled state `st1c` and the concrete completed state `stB5`. -/
theorem claim_C3_terminal_amended_witness :
    createProgress 100 st1c inpW = .error .cancelledOrder ∧
    completeOrder st1c "order-1" = .error .cannotCompleteCancelled ∧
    completeOrder stB5 "order-1" = .error .alreadyCompleted ∧
    cancelOrder stB5 "order-1" = .error .cannotCancelCompleted := by
  have h1 := (claim_C3_terminal_amended 100 st1c "order-1").1 rfl
  have h2 := (claim_C3_terminal_amended 100 stB5 "order-1").2 rfl
  exact ⟨h1.1 inpW rfl, h1.2.2.1, h2.1, h2.2⟩

/-- Claim C5, counterexample: In the reachable state `st2c` the shipping
record lacks `date_received`, but the applied create attempt (payload
`{est_applied_area: 10}`) is rejected with the cancelled-order
(terminal-state) error — not a prerequisite error as the claim
promises for every such order. -/
theorem claim_C5_counterexample :
    Reachable st2c ∧
    (∀ r ∈ st2c.progress, r.stage = Stage.shipping →
      r.data.jsDateReceived = none) ∧
    createProgress 100 st2c inpApplied10 = .error .cancelledOrder ∧
    PErr.cancelledOrder.isPrerequisiteError = false :=
  ⟨reachable_st2c, by decide, rfl, rfl⟩

/-- Claim C5, amended: For every order whose shipping records (if any) lack
`date_received`, an applied-stage create never succeeds, so no applied
record is created; and the rejection is a prerequisite error whenever the
order check and the payload validation pass and no applied record already
exists (otherwise the earlier check's error is reported instead). -/
theorem claim_C5_applied_gate_amended (now : Int) (s : DBState) (oid : String)
    (hnorecv : ∀ r ∈ s.progress, r.order_id = oid → r.stage = Stage.shipping →
      r.data.jsDateReceived = none) :
    (∀ (d : AppliedData) s', createProgress now s ⟨oid, .applied d⟩ ≠ .ok s') ∧
    (∀ d : AppliedData, validateOrderS s oid = .ok () →
      zodParseApplied d = .ok () → validateAppliedData d = .ok () →
      checkExistingProgress s oid .applied = false →
      ∃ e, createProgress now s ⟨oid, .applied d⟩ = .error e ∧
        e.isPrerequisiteError = true) := by
  constructor
  · intro d s' hok
    obtain ⟨-, -, -, h4, -⟩ := appliedCreate_ok_iff.mp hok
    obtain ⟨-, sp, hsp, -, -, hdr⟩ := appliedBusinessRules_ok_iff.mp h4
    obtain ⟨hm, ho, hs⟩ := getStage_some_spec hsp
    have := hnorecv sp hm ho hs
    rw [this] at hdr
    exact absurd hdr (by simp)
  · intro d hord hzod hval hex
    obtain ⟨e, hbr, hpre⟩ := appliedBusinessRules_prereq hex hnorecv
    exact ⟨e, appliedCreate_error_of_rules hord hzod hval hbr, hpre⟩

/-- Claim C5, witness: The amended claim at the concrete state `st2` (valid
order, shipping shipped but not received): the applied create is
rejected with a prerequisite error. -/
theorem claim_C5_applied_gate_amended_witness :
    (∀ s', createProgress 100 st2 inpApplied10 ≠ .ok s') ∧
    ∃ e, createProgress 100 st2 inpApplied10 = .error e ∧
      e.isPrerequisiteError = true := by
  have h := claim_C5_applied_gate_amended 100 st2 "order-1" (by decide)
  exact ⟨h.1 ⟨10, none⟩, h.2 ⟨10, none⟩ rfl rfl rfl (by decide)⟩

/-- Claim C6, counterexample: In the reachable state `st2` a shipping record
(a strictly later stage) exists for the order, yet deleting the
warehouse record succeeds: `WarehouseProgressService.delete` performs no
dependent-stage check, contradicting the claim's "for every stage". -/
theorem claim_C6_counterexample :
    Reachable st2 ∧
    findById st2 0 = some ⟨0, "order-1", .warehouse, .warehouse ⟨true⟩⟩ ∧
    (∃ r ∈ st2.progress, r.order_id = "order-1" ∧ r.stage = Stage.shipping) ∧
    deleteOrderProgress st2 0 = .ok st2d :=
  ⟨reachable_st2, rfl, by decide, rfl⟩

/-- Claim C6, amended: The dependent-stage delete guard exists only for the
shipping and applied services: deleting a shipping record fails with the
conflict error exactly when an applied or result record exists for the
same order, and succeeds otherwise; deleting an applied record fails
exactly when a result record exists; warehouse and result deletes perform
no later-stage check and succeed whenever the record exists. -/
theorem claim_C6_delete_guard_amended (s : DBState) (id : Nat)
    (r : ProgressRecord) (hf : findById s id = some r) :
    (r.stage = Stage.shipping →
      ((∃ r' ∈ s.progress, r'.order_id = r.order_id ∧
          (r'.stage = Stage.applied ∨ r'.stage = Stage.result)) →
        deleteOrderProgress s id = .error (.dependentProgressExists .shipping)) ∧
      ((∀ r' ∈ s.progress, r'.order_id = r.order_id →
          r'.stage ≠ Stage.applied ∧ r'.stage ≠ Stage.result) →
        ∃ s', deleteOrderProgress s id = .ok s')) ∧
    (r.stage = Stage.applied →
      ((∃ r' ∈ s.progress, r'.order_id = r.order_id ∧
          r'.stage = Stage.result) →
        deleteOrderProgress s id = .error (.dependentProgressExists .applied)) ∧
      ((∀ r' ∈ s.progress, r'.order_id = r.order_id →
          r'.stage ≠ Stage.result) →
        ∃ s', deleteOrderProgress s id = .ok s')) ∧
    (r.stage = Stage.warehouse → ∃ s', deleteOrderProgress s id = .ok s') ∧
    (r.stage = Stage.result → ∃ s', deleteOrderProgress s id = .ok s') := by
  have hdel : ∀ st : Stage, r.stage = st →
      deleteOrderProgress s id = (match st with
        | .warehouse => warehouseDelete s id
        | .shipping => shippingDelete s id
        | .applied => appliedDelete s id
        | .result => resultDelete s id) := by
    intro st hst
    unfold deleteOrderProgress
    rw [hf]
    dsimp only
    rw [hst]
  refine ⟨fun hst => ⟨?_, ?_⟩, fun hst => ⟨?_, ?_⟩, fun hst => ?_, fun hst => ?_⟩
  · rintro ⟨r', hm, ho, hdep⟩
    rw [hdel .shipping hst]
    have hsome : (s.progress.find? (fun x => x.order_id == r.order_id &&
        (x.stage == Stage.applied || x.stage == Stage.result))).isSome := by
      rw [List.find?_isSome]
      refine ⟨r', hm, ?_⟩
      rcases hdep with h | h <;> simp [ho, h]
    unfold shippingDelete
    rw [hf]
    dsimp only
    rw [Option.isSome_iff_exists] at hsome
    obtain ⟨x, hx⟩ := hsome
    rw [hx]
    rfl
  · intro hnone
    rw [hdel .shipping hst]
    have hn : s.progress.find? (fun x => x.order_id == r.order_id &&
        (x.stage == Stage.applied || x.stage == Stage.result)) = none := by
      rw [List.find?_eq_none]
      intro x hx
      have := hnone x hx
      simp only [Bool.and_eq_true, Bool.or_eq_true, beq_iff_eq, not_and, not_or]
      intro ho
      exact this ho
    unfold shippingDelete
    rw [hf]
    dsimp only
    rw [hn]
    exact ⟨_, rfl⟩
  · rintro ⟨r', hm, ho, hdep⟩
    rw [hdel .applied hst]
    have hsome : (s.progress.find? (fun x => x.order_id == r.order_id &&
        x.stage == Stage.result)).isSome := by
      rw [List.find?_isSome]
      exact ⟨r', hm, by simp [ho, hdep]⟩
    unfold appliedDelete
    rw [hf]
    dsimp only
    rw [Option.isSome_iff_exists] at hsome
    obtain ⟨x, hx⟩ := hsome
    rw [hx]
    rfl
  · intro hnone
    rw [hdel .applied hst]
    have hn : s.progress.find? (fun x => x.order_id == r.order_id &&
        x.stage == Stage.result) = none := by
      rw [List.find?_eq_none]
      intro x hx
      have := hnone x hx
      simp only [Bool.and_eq_true, beq_iff_eq, not_and]
      exact this
    unfold appliedDelete
    rw [hf]
    dsimp only
    rw [hn]
    exact ⟨_, rfl⟩
  · rw [hdel .warehouse hst]
    unfold warehouseDelete
    rw [hf]
    exact ⟨_, rfl⟩
  · rw [hdel .result hst]
    unfold resultDelete
    rw [hf]
    exact ⟨_, rfl⟩

/-- Claim C6, witness: The amended claim at the concrete state `stB3`:
deleting the shipping record (id 1) while an applied record exists fails
with the conflict error, and deleting the applied record (id 2, no
result record yet) succeeds. -/
theorem claim_C6_delete_guard_amended_witness :
    deleteOrderProgress stB3 1 = .error (.dependentProgressExists .shipping) ∧
    ∃ s', deleteOrderProgress stB3 2 = .ok s' := by
  have h1 := (claim_C6_delete_guard_amended stB3 1
    ⟨1, "order-1", .shipping, .shipping ⟨true, some 10, some 20⟩⟩ rfl).1 rfl
  have h2 := (claim_C6_delete_guard_amended stB3 2
    ⟨2, "order-1", .applied, .applied ⟨10, none⟩⟩ rfl).2.1 rfl
  exact ⟨h1.1 ⟨⟨2, "order-1", .applied, .applied ⟨10, none⟩⟩,
    by decide, rfl, Or.inl rfl⟩, h2.2 (by decide)⟩

/-- Claim C7, counterexample: In the reachable state `st1c` (cancelled
order) the create of `result {status: true}` with no `yield_amount` is
rejected with the cancelled-order (terminal-state) error, not with a
validation error as the claim promises for every such create. -/
theorem claim_C7_counterexample :
    Reachable st1c ∧
    createProgress 100 st1c inpResultNoYield = .error .cancelledOrder ∧
    PErr.cancelledOrder.isValidationError = false :=
  ⟨reachable_st1c, rfl, rfl⟩

/-- Claim C7, amended: Result-stage validation accepts a payload only if
`yield_amount` is present whenever `status == true` and absent or zero
whenever `status == false`; a create of `result {status: true}` with no
`yield_amount` never succeeds, and it is rejected with the
yield-required validation error whenever the order check passes
(otherwise the order check's error is reported instead). -/
theorem claim_C7_result_validation_amended (now : Int) (s : DBState)
    (oid : String) :
    (∀ d : ResultData, validateResultData d = .ok () →
      (d.status = true → d.yield_amount.isSome) ∧
      (d.status = false → d.yield_amount = none ∨ d.yield_amount = some 0)) ∧
    (∀ s', createProgress now s ⟨oid, .result ⟨true, none⟩⟩ ≠ .ok s') ∧
    (validateOrderS s oid = .ok () →
      createProgress now s ⟨oid, .result ⟨true, none⟩⟩ =
        .error .yieldRequired ∧ PErr.yieldRequired.isValidationError = true) := by
  refine ⟨fun d => validateResultData_ok_necessary, ?_, ?_⟩
  · intro s' hok
    have hval := (createProgress_ok_shape hok).2.2.2
    exact absurd hval (by simp [payloadValid, validateResultData,
      requireYieldPresent, Bind.bind, Except.bind])
  · intro hord
    exact ⟨resultCreate_noYield hord, rfl⟩

/-- Claim C7, witness: The amended claim at the concrete state `st1`: the
no-yield create is rejected with the validation error. -/
theorem claim_C7_result_validation_amended_witness :
    createProgress 100 st1 ⟨"order-1", .result ⟨true, none⟩⟩ =
      .error .yieldRequired ∧
    validateResultData ⟨true, some 50⟩ = .ok () ∧
    (ResultData.mk true (some 50)).yield_amount.isSome := by
  have h := claim_C7_result_validation_amended 100 st1 "order-1"
  exact ⟨(h.2.2 rfl).1, rfl, ((h.1 ⟨true, some 50⟩ rfl).1 rfl)⟩

end OrderProgress
